import Mathlib

/-!
Verification of the `ic_fs` append-only log engine.

The engine (src/lib.rs, src/read_write.rs, src/index_block.rs,
src/topic_header_block.rs) runs over a flat byte-addressable memory exposed
through two closures `BlockWrite`/`BlockRead`.  We embed that memory as a
total function from addresses to byte values, a primitive write as a
`WCall` record (offset plus byte list), and each engine operation as a pure
function that returns its result together with the list of primitive write
calls it issues, applied in order.

The repository's `constants.rs` module is not part of the supplied sources
(only its users are), so the layout constants are modelled from the spec
(sections 3 and 6).  The writer/reader module `read_write.rs` is embedded
as written: its `MemoryWriter::write` constructs an index record from the
four fields `data_size`, `start_idx`, `end_idx`, `timestamp` (32 bytes as
four little-endian 64-bit integers) and its `MemoryReader::read_idx`
decodes exactly a 32-byte buffer, which is the consistent
write-side/read-side convention of the authoritative revision; the
standalone `index_block.rs` declaration adds a fifth `height` field, a
known discrepancy recorded in the spec's design notes.
-/

/-- A flat byte-addressable memory: address to byte value. -/
def Mem : Type := Nat → Nat

/-- The all-zero memory (a fresh, zeroed store). -/
def zeroMem : Mem := fun _ => 0

/-- One primitive write call: `write_fn(offset, data)`. -/
structure WCall where
  off : Nat
  data : List Nat
deriving DecidableEq

/-- Effect of one bounded primitive write on the memory. -/
def writeBytes (m : Mem) (off : Nat) (data : List Nat) : Mem :=
  fun a => if off ≤ a ∧ a - off < data.length then data.getD (a - off) 0 else m a

/-- Effect of one bounded primitive read: `len` bytes starting at `off`. -/
def readBytes (m : Mem) (off len : Nat) : List Nat :=
  (List.range len).map fun i => m (off + i)

/-- Apply a list of primitive write calls in order. -/
def applyCalls (m : Mem) (cs : List WCall) : Mem :=
  cs.foldl (fun m' c => writeBytes m' c.off c.data) m

/-- Little-endian encoding of `n` on `len` bytes (`u64::to_le_bytes` is
`natToLe 8`); higher bytes are truncated exactly as the fixed-width store
does. -/
def natToLe : Nat → Nat → List Nat
  | 0, _ => []
  | len + 1, n => n % 256 :: natToLe len (n / 256)

/-- Little-endian decoding of a byte list (`u64::from_le_bytes`). -/
def leToNat : List Nat → Nat
  | [] => 0
  | b :: bs => b + 256 * leToNat bs

@[simp] theorem natToLe_length (len n : Nat) : (natToLe len n).length = len := by
  induction len generalizing n with
  | zero => rfl
  | succ k ih => simp [natToLe, ih]

theorem leToNat_natToLe (len n : Nat) : leToNat (natToLe len n) = n % 256 ^ len := by
  induction len generalizing n with
  | zero => simp [natToLe, leToNat, Nat.mod_one]
  | succ k ih =>
      have h : (256 : Nat) ^ (k + 1) = 256 * 256 ^ k := by ring
      simp [natToLe, leToNat, ih, h, Nat.mod_mul]

theorem leToNat_natToLe_of_lt {len n : Nat} (h : n < 256 ^ len) :
    leToNat (natToLe len n) = n := by
  rw [leToNat_natToLe, Nat.mod_eq_of_lt h]

@[simp] theorem leToNat_replicate_zero (n : Nat) :
    leToNat (List.replicate n 0) = 0 := by
  induction n with
  | zero => rfl
  | succ k ih => simp [List.replicate, leToNat, ih]

@[simp] theorem readBytes_length (m : Mem) (off len : Nat) :
    (readBytes m off len).length = len := by
  simp [readBytes]

theorem readBytes_zeroMem (off len : Nat) :
    readBytes zeroMem off len = List.replicate len 0 := by
  apply List.ext_getElem
  · simp
  · intro i h1 h2
    simp [readBytes, zeroMem]

/-- Reading back exactly the bytes of the latest write at the same offset. -/
theorem readBytes_writeBytes (m : Mem) (off : Nat) (data : List Nat) :
    readBytes (writeBytes m off data) off data.length = data := by
  apply List.ext_getElem
  · simp
  · intro i h1 h2
    simp only [readBytes, List.getElem_map, List.getElem_range, writeBytes]
    have hc : off ≤ off + i ∧ off + i - off < data.length := by omega
    rw [if_pos hc]
    simp [List.getD_eq_getElem?_getD, List.getElem?_eq_getElem, h2]

/-- A write does not change bytes strictly below or at/above its range. -/
theorem writeBytes_eq_of_outside (m : Mem) (off : Nat) (data : List Nat)
    (a : Nat) (h : a < off ∨ off + data.length ≤ a) :
    writeBytes m off data a = m a := by
  have hc : ¬ (off ≤ a ∧ a - off < data.length) := by omega
  simp [writeBytes, hc]

theorem readBytes_congr {m₁ m₂ : Mem} (off len : Nat)
    (h : ∀ a, off ≤ a → a < off + len → m₁ a = m₂ a) :
    readBytes m₁ off len = readBytes m₂ off len := by
  apply List.ext_getElem
  · simp
  · intro i h1 h2
    have hi : i < len := by simpa using h1
    simp only [readBytes, List.getElem_map, List.getElem_range]
    exact h (off + i) (by omega) (by omega)

/-- Reading a range that is disjoint from a write sees the old memory. -/
theorem readBytes_writeBytes_disjoint (m : Mem) (off₁ len₁ off₂ : Nat)
    (data : List Nat) (h : off₁ + len₁ ≤ off₂ ∨ off₂ + data.length ≤ off₁) :
    readBytes (writeBytes m off₂ data) off₁ len₁ = readBytes m off₁ len₁ := by
  apply readBytes_congr
  intro a ha1 ha2
  exact writeBytes_eq_of_outside m off₂ data a (by omega)

/-!
Layout constants.  `TOPIC_HEADER_MAGIC` comes from
src/topic_header_block.rs.  The remaining constants live in the crate's
`constants` module, which is not among the supplied sources; they are
modelled from the spec.
-/

/-- Magic number constant (src/topic_header_block.rs line 5). -/
def TOPIC_HEADER_MAGIC : Nat := 123246369

/-- Modelled from the spec: data-zone block size in bytes (spec sections 3,
6: blocks of a fixed block size, 512 bytes). `constants.rs` is missing from
the sources. -/
def BLOCK_SIZE : Nat := 512

/-- Modelled from the spec: index-zone slot stride in bytes (spec section
6: slot `n` at `indexZoneStart + n * 40`). `constants.rs` is missing from
the sources. -/
def IDX_BLOCK_SIZE : Nat := 40

/-- Modelled from the spec: magic number slot, 8 bytes at offset 0 (spec
section 6). `constants.rs` is missing from the sources. -/
def MAGIC_NUMBER_IDX : Nat := 0

/-- Modelled from the spec: persisted write-height slot, 8 bytes at a fixed
offset of the header zone, directly after the magic number (spec sections
3, 6). `constants.rs` is missing from the sources. -/
def TOPIC_HEIGHT_IDX : Nat := 8

/-- Modelled from the spec: header-record size slot, 8 bytes (spec section
6), after the height slot. `constants.rs` is missing from the sources. -/
def TOPIC_BLOCK_SIZE_IDX : Nat := 16

/-- Modelled from the spec: start of the header-record area (spec section
6), after the size slot. `constants.rs` is missing from the sources. -/
def TOPIC_BLOCK_DATA_START_IDX : Nat := 24

/-- Modelled from the spec: the header-record area is bounded to 512 bytes
(spec sections 4.1, 6). `constants.rs` is missing from the sources. -/
def TOPIC_BLOCK_MAX_SIZE : Nat := 512

/-- Modelled from the spec: free-memory slot size field, 8 bytes, after the
header-record area (spec sections 3, 6). `constants.rs` is missing from the
sources. -/
def FREE_MEMORY_BLOCK_SIZE_IDX : Nat := TOPIC_BLOCK_DATA_START_IDX + TOPIC_BLOCK_MAX_SIZE

/-- Modelled from the spec: start of the free-memory blob area, directly
after its size field (spec section 6). `constants.rs` is missing from the
sources. -/
def FREE_MEMORY_BLOCK_START_IDX : Nat := FREE_MEMORY_BLOCK_SIZE_IDX + 8

/-- Modelled from the spec: fixed capacity of the free-memory slot (spec
section 4.5: a fixed byte cap, concrete value not recorded in the sources);
1024 is one representative choice. `constants.rs` is missing from the
sources. -/
def FREE_MEMORY_BLOCK_SIZE : Nat := 1024

/-- Modelled from the spec: start of the index zone, after the free-memory
slot (spec sections 3, 6). `constants.rs` is missing from the sources. -/
def IDX_ZONE_IDX : Nat := FREE_MEMORY_BLOCK_START_IDX + FREE_MEMORY_BLOCK_SIZE

/-- Modelled from the spec: number of index-zone slots (the index zone is a
statically sized region, spec section 3; concrete count not recorded in the
sources); 65536 is one representative choice. `constants.rs` is missing
from the sources. -/
def IDX_SLOT_COUNT : Nat := 65536

/-- Modelled from the spec: end of the index zone, which is also the
data-zone origin (src/read_write.rs uses `IDX_ZONE_END` as the data-zone
base offset). `constants.rs` is missing from the sources. -/
def IDX_ZONE_END : Nat := IDX_ZONE_IDX + IDX_SLOT_COUNT * IDX_BLOCK_SIZE

/-!
Binary record codecs.  The index record is embedded with the four fields
that the authoritative writer `MemoryWriter::write` (src/read_write.rs
lines 50-55) actually populates and the reader's 32-byte buffer
(src/read_write.rs line 120) actually holds: `data_size`, `start_idx`,
`end_idx`, `timestamp`, serialized by bincode as four little-endian 64-bit
integers in field order.  Trailing bytes are permitted by
`bincode::deserialize`, and decoding a fixed-width integer consumes exactly
8 bytes.
-/

/-- Index record as constructed by `MemoryWriter::write`
(src/read_write.rs). -/
structure IndexBlock where
  data_size : Nat
  start_idx : Nat
  end_idx : Nat
  timestamp : Nat
deriving DecidableEq

/-- bincode serialization of an index record: four little-endian u64 in
field order. -/
def IndexBlock.encode (b : IndexBlock) : List Nat :=
  natToLe 8 b.data_size ++ natToLe 8 b.start_idx ++ natToLe 8 b.end_idx
    ++ natToLe 8 b.timestamp

/-- bincode deserialization of an index record from a buffer; fails on a
buffer shorter than the record, ignores trailing bytes. -/
def IndexBlock.decode (bs : List Nat) : Option IndexBlock :=
  if 32 ≤ bs.length then
    some { data_size := leToNat (bs.take 8),
           start_idx := leToNat ((bs.drop 8).take 8),
           end_idx := leToNat ((bs.drop 16).take 8),
           timestamp := leToNat ((bs.drop 24).take 8) }
  else none

@[simp] theorem IndexBlock.encode_length_eq (b : IndexBlock) :
    b.encode.length = 32 := by
  simp [IndexBlock.encode]

theorem take_append_of_length {l₁ l₂ : List Nat} {n : Nat}
    (h : l₁.length = n) : (l₁ ++ l₂).take n = l₁ := by
  subst h
  simp

theorem drop_append_of_length {l₁ l₂ : List Nat} {n : Nat}
    (h : l₁.length = n) : (l₁ ++ l₂).drop n = l₂ := by
  subst h
  simp

theorem IndexBlock.decode_encode_record (b : IndexBlock) :
    IndexBlock.decode b.encode =
      some { data_size := b.data_size % 2 ^ 64, start_idx := b.start_idx % 2 ^ 64,
             end_idx := b.end_idx % 2 ^ 64, timestamp := b.timestamp % 2 ^ 64 } := by
  have h256 : (256 : Nat) ^ 8 = 2 ^ 64 := by norm_num
  have hds : (b.encode.take 8) = natToLe 8 b.data_size := by
    rw [IndexBlock.encode, List.append_assoc, List.append_assoc]
    exact take_append_of_length (by simp)
  have hdrop8 : b.encode.drop 8
      = natToLe 8 b.start_idx ++ (natToLe 8 b.end_idx ++ natToLe 8 b.timestamp) := by
    rw [IndexBlock.encode, List.append_assoc, List.append_assoc]
    exact drop_append_of_length (by simp)
  have hdrop16 : b.encode.drop 16 = natToLe 8 b.end_idx ++ natToLe 8 b.timestamp := by
    have : b.encode.drop 16 = (b.encode.drop 8).drop 8 := by
      rw [List.drop_drop]
    rw [this, hdrop8]
    exact drop_append_of_length (by simp)
  have hdrop24 : b.encode.drop 24 = natToLe 8 b.timestamp := by
    have : b.encode.drop 24 = (b.encode.drop 16).drop 8 := by
      rw [List.drop_drop]
    rw [this, hdrop16]
    exact drop_append_of_length (by simp)
  rw [IndexBlock.decode, if_pos (by simp)]
  rw [hds, hdrop8, hdrop16, hdrop24]
  rw [@take_append_of_length (natToLe 8 b.start_idx) (natToLe 8 b.end_idx ++ natToLe 8 b.timestamp) 8 (by simp)]
  rw [@take_append_of_length (natToLe 8 b.end_idx) (natToLe 8 b.timestamp) 8 (by simp)]
  rw [List.take_of_length_le (by simp)]
  simp [leToNat_natToLe, h256]

theorem IndexBlock.decode_replicate_zero :
    IndexBlock.decode (List.replicate 32 0) =
      some { data_size := 0, start_idx := 0, end_idx := 0, timestamp := 0 } := by
  decide

/-- Topic header record (src/topic_header_block.rs); the stream name is
kept as its UTF-8 byte string. -/
structure TopicHeaderBlock where
  event_stream_name : List Nat
  first_message_ptr : Nat
  binary_version : Nat
deriving DecidableEq

/-- bincode serialization of the header record: length-prefixed name bytes,
then a little-endian u64 pointer and u32 version. -/
def TopicHeaderBlock.encode (h : TopicHeaderBlock) : List Nat :=
  natToLe 8 h.event_stream_name.length ++ h.event_stream_name
    ++ natToLe 8 h.first_message_ptr ++ natToLe 4 h.binary_version

/-- bincode deserialization of the header record; fails on a truncated
buffer. -/
def TopicHeaderBlock.decode (bs : List Nat) : Option TopicHeaderBlock :=
  if 8 ≤ bs.length then
    let len := leToNat (bs.take 8)
    let rest := bs.drop 8
    if len + 12 ≤ rest.length then
      some { event_stream_name := rest.take len,
             first_message_ptr := leToNat ((rest.drop len).take 8),
             binary_version := leToNat ((rest.drop (len + 8)).take 4) }
    else none
  else none

@[simp] theorem TopicHeaderBlock.encode_header_length (h : TopicHeaderBlock) :
    h.encode.length = h.event_stream_name.length + 20 := by
  simp [TopicHeaderBlock.encode]
  omega

theorem TopicHeaderBlock.decode_encode_header (h : TopicHeaderBlock)
    (hlen : h.event_stream_name.length < 2 ^ 64) :
    TopicHeaderBlock.decode h.encode =
      some { event_stream_name := h.event_stream_name,
             first_message_ptr := h.first_message_ptr % 2 ^ 64,
             binary_version := h.binary_version % 2 ^ 32 } := by
  have h256 : (256 : Nat) ^ 8 = 2 ^ 64 := by norm_num
  have h2564 : (256 : Nat) ^ 4 = 2 ^ 32 := by norm_num
  have htake : h.encode.take 8 = natToLe 8 h.event_stream_name.length := by
    rw [TopicHeaderBlock.encode, List.append_assoc, List.append_assoc]
    exact take_append_of_length (by simp)
  have hdrop : h.encode.drop 8
      = h.event_stream_name ++ (natToLe 8 h.first_message_ptr ++ natToLe 4 h.binary_version) := by
    rw [TopicHeaderBlock.encode, List.append_assoc, List.append_assoc]
    exact drop_append_of_length (by simp)
  have hlenv : leToNat (h.encode.take 8) = h.event_stream_name.length := by
    rw [htake, leToNat_natToLe_of_lt (by omega)]
  rw [TopicHeaderBlock.decode, if_pos (by simp)]
  simp only [hlenv, hdrop]
  rw [if_pos (by simp)]
  rw [take_append_of_length rfl]
  rw [drop_append_of_length rfl]
  have hd2 : (h.event_stream_name
      ++ (natToLe 8 h.first_message_ptr ++ natToLe 4 h.binary_version)).drop
        (h.event_stream_name.length + 8)
      = natToLe 4 h.binary_version := by
    have hsplit : (h.event_stream_name
        ++ (natToLe 8 h.first_message_ptr ++ natToLe 4 h.binary_version)).drop
          (h.event_stream_name.length + 8)
        = ((h.event_stream_name
            ++ (natToLe 8 h.first_message_ptr ++ natToLe 4 h.binary_version)).drop
              h.event_stream_name.length).drop 8 := by
      rw [List.drop_drop]
    rw [hsplit, drop_append_of_length rfl]
    exact drop_append_of_length (by simp)
  rw [hd2]
  rw [@take_append_of_length (natToLe 8 h.first_message_ptr) (natToLe 4 h.binary_version) 8 (by simp)]
  rw [List.take_of_length_le (by simp)]
  simp [leToNat_natToLe, h256, h2564]

/-!
Writer and reader (src/read_write.rs).  A Rust value of any serializable
payload type is represented by its bincode byte string; a fallible
`bincode::serialize` result is an `Option (List Nat)` (`none` is a
serialization failure) and a payload deserializer is a function
`List Nat → Option α`.  The clock callback is represented by passing the
current clock value to each write.
-/

/-- `get_block_count` (src/read_write.rs lines 22-28). -/
def get_block_count (data_size : Nat) : Nat :=
  let blocks := data_size / BLOCK_SIZE
  if data_size % BLOCK_SIZE ≠ 0 then blocks + 1 else blocks

/-- `get_data_offset_from_height` (src/read_write.rs lines 30-32). -/
def get_data_offset_from_height (height : Nat) : Nat :=
  IDX_ZONE_END + height * BLOCK_SIZE

/-- Writer state: the running write cursor (src/read_write.rs lines
16-20). -/
structure MemoryWriter where
  block_offset : Nat
deriving DecidableEq

/-- `MemoryWriter::write_idx` (src/read_write.rs lines 70-77): the
primitive write call recording an index record at the cursor's index-zone
slot. -/
def MemoryWriter.write_idx (w : MemoryWriter) (idx : IndexBlock) : WCall :=
  { off := IDX_ZONE_IDX + w.block_offset * IDX_BLOCK_SIZE, data := idx.encode }

/-- `MemoryWriter::write` (src/read_write.rs lines 44-68): serialize the
payload, build the index record, issue the index-record write and the
payload write, advance the cursor.  `ts` is the value of the clock
callback. -/
def MemoryWriter.write (w : MemoryWriter) (enc : Option (List Nat)) (ts : Nat) :
    Except String (IndexBlock × List WCall × MemoryWriter) :=
  match enc with
  | none => .error eSerialize
  | some bytes =>
      let blocks := get_block_count bytes.length
      let idx : IndexBlock :=
        { data_size := bytes.length,
          start_idx := w.block_offset,
          end_idx := w.block_offset + blocks,
          timestamp := ts }
      let idxCall := w.write_idx idx
      let dataCall : WCall := { off := IDX_ZONE_END + w.block_offset * BLOCK_SIZE, data := bytes }
      .ok (idx, [idxCall, dataCall], { block_offset := w.block_offset + blocks })
where
  eSerialize : String := "Failed to serialize"

/-- `MemoryReader::read_idx` (src/read_write.rs lines 119-124): read a
32-byte buffer at the identifier's index-zone slot and decode it. -/
def MemoryReader.read_idx (m : Mem) (offset : Nat) : Except String IndexBlock :=
  match IndexBlock.decode (readBytes m (IDX_ZONE_IDX + IDX_BLOCK_SIZE * offset) 32) with
  | some idx => .ok idx
  | none => .error eDeserialize
where
  eDeserialize : String := "Failed to deserialize"

/-- `MemoryReader::read_topic_message` (src/read_write.rs lines 107-117):
decode the index record, then read and decode exactly `data_size` bytes
from the record's start block. -/
def MemoryReader.read_topic_message {α : Type} (m : Mem) (dec : List Nat → Option α)
    (height : Nat) : Except String α :=
  match MemoryReader.read_idx m height with
  | .error e => .error e
  | .ok idx =>
      match dec (readBytes m (get_data_offset_from_height idx.start_idx) idx.data_size) with
      | some v => .ok v
      | none => .error MemoryReader.read_idx.eDeserialize

/-- `MemoryReader::read_range` (src/read_write.rs lines 96-105): repeated
single reads at consecutive block numbers, first failure wins. -/
def MemoryReader.read_range {α : Type} (m : Mem) (dec : List Nat → Option α) :
    Nat → Nat → Except String (List α)
  | _, 0 => .ok []
  | start, count + 1 =>
      match MemoryReader.read_topic_message m dec start with
      | .error e => .error e
      | .ok v =>
          match MemoryReader.read_range m dec (start + 1) count with
          | .error e => .error e
          | .ok vs => .ok (v :: vs)

/-!
Engine facade (src/lib.rs).  The engine owns the memory (standing for the
injected `write_fn`/`read_fn` pair over one flat region), the writer cursor
and the cached topic header.
-/

/-- `EventFilesystem` (src/lib.rs lines 22-28). -/
structure EventFilesystem where
  mem : Mem
  block_offset : Nat
  topic_header : TopicHeaderBlock

/-- `read_block_height` (src/lib.rs lines 168-172). -/
def read_block_height (m : Mem) : Nat :=
  leToNat (readBytes m TOPIC_HEIGHT_IDX 8)

/-- The primitive write issued by `write_block_height` (src/lib.rs lines
163-166). -/
def write_block_height_call (height : Nat) : WCall :=
  { off := TOPIC_HEIGHT_IDX, data := natToLe 8 height }

/-- `is_magic_number_valid` (src/lib.rs lines 133-138). -/
def is_magic_number_valid (m : Mem) : Bool :=
  leToNat (readBytes m MAGIC_NUMBER_IDX 8) == TOPIC_HEADER_MAGIC

/-- The primitive write issued by `write_magic_number` (src/lib.rs lines
140-142); the source writes at literal offset 0. -/
def write_magic_number_call : WCall :=
  { off := 0, data := natToLe 8 TOPIC_HEADER_MAGIC }

/-- `read_topic_block` (src/lib.rs lines 144-152).  The source unwraps the
decode result, so a decode failure is a process abort, modelled as
`none`. -/
def read_topic_block (m : Mem) : Option TopicHeaderBlock :=
  let size := leToNat (readBytes m TOPIC_BLOCK_SIZE_IDX 8)
  TopicHeaderBlock.decode (readBytes m TOPIC_BLOCK_DATA_START_IDX size)

/-- `write_topic_block` (src/lib.rs lines 154-161).  The source asserts
that the serialized header fits in the header-record area; an assertion
failure is a process abort, modelled as `none`. -/
def write_topic_block (header : TopicHeaderBlock) : Option (List WCall) :=
  if header.encode.length ≤ TOPIC_BLOCK_MAX_SIZE then
    some [{ off := TOPIC_BLOCK_SIZE_IDX, data := natToLe 8 header.encode.length },
          { off := TOPIC_BLOCK_DATA_START_IDX, data := header.encode }]
  else none

/-- `EventFilesystem::get_file_system` (src/lib.rs lines 31-50): reload the
persisted height into the writer cursor and unwrap the persisted header. -/
def get_file_system (m : Mem) : Option EventFilesystem :=
  match read_topic_block m with
  | some th => some { mem := m, block_offset := read_block_height m, topic_header := th }
  | none => none

/-- `EventFilesystem::get_or_create` (src/lib.rs lines 76-108). -/
def get_or_create (m : Mem) (event_stream_name : List Nat) : Option EventFilesystem :=
  if is_magic_number_valid m then
    get_file_system m
  else
    let m₁ := writeBytes m write_magic_number_call.off write_magic_number_call.data
    let m₂ := writeBytes m₁ (write_block_height_call 0).off (write_block_height_call 0).data
    let topic_block : TopicHeaderBlock :=
      { event_stream_name := event_stream_name, first_message_ptr := 0,
        binary_version := 1000000 }
    match write_topic_block topic_block with
    | some calls =>
        some { mem := applyCalls m₂ calls, block_offset := 0, topic_header := topic_block }
    | none => none

/-- `EventFilesystem::get_topic_height` (src/lib.rs lines 52-54):
re-reads the persisted height from the memory primitive. -/
def EventFilesystem.get_topic_height (fs : EventFilesystem) : Nat :=
  read_block_height fs.mem

/-- `EventFilesystem::write_topic_message` (src/lib.rs lines 114-126):
delegate to the writer, then persist the new cursor into the height slot.
Returns the result, the primitive write calls issued in order, and the
engine after those calls are applied. -/
def EventFilesystem.write_topic_message (fs : EventFilesystem)
    (enc : Option (List Nat)) (ts : Nat) :
    Except String Nat × List WCall × EventFilesystem :=
  match MemoryWriter.write { block_offset := fs.block_offset } enc ts with
  | .ok (idx, cs, w') =>
      let calls := cs ++ [write_block_height_call w'.block_offset]
      (.ok idx.start_idx, calls,
       { mem := applyCalls fs.mem calls, block_offset := w'.block_offset,
         topic_header := fs.topic_header })
  | .error e => (.error e, [], fs)

/-- `EventFilesystem::read_topic_message` (src/lib.rs lines 110-112). -/
def EventFilesystem.read_topic_message {α : Type} (fs : EventFilesystem)
    (dec : List Nat → Option α) (id : Nat) : Except String α :=
  MemoryReader.read_topic_message fs.mem dec id

/-- `EventFilesystem::read_topic_messages` (src/lib.rs lines 128-130). -/
def EventFilesystem.read_topic_messages {α : Type} (fs : EventFilesystem)
    (dec : List Nat → Option α) (start take : Nat) : Except String (List α) :=
  MemoryReader.read_range fs.mem dec start take

/-- `EventFilesystem::stable_store` (src/lib.rs lines 56-64): serialize,
reject a blob larger than the slot capacity before any write, otherwise
write the size field and the blob. -/
def EventFilesystem.stable_store (fs : EventFilesystem) (enc : Option (List Nat)) :
    Except String Unit × List WCall × EventFilesystem :=
  match enc with
  | none => (.error MemoryWriter.write.eSerialize, [], fs)
  | some data =>
      if data.length > FREE_MEMORY_BLOCK_SIZE then
        (.error eTooLarge, [], fs)
      else
        let calls : List WCall :=
          [{ off := FREE_MEMORY_BLOCK_SIZE_IDX, data := natToLe 8 data.length },
           { off := FREE_MEMORY_BLOCK_START_IDX, data := data }]
        (.ok (), calls,
         { mem := applyCalls fs.mem calls, block_offset := fs.block_offset,
           topic_header := fs.topic_header })
where
  eTooLarge : String := "Data is too large"

/-- `EventFilesystem::stable_restore` (src/lib.rs lines 66-74): read the
size field, then that many blob bytes, and deserialize. -/
def EventFilesystem.stable_restore {α : Type} (fs : EventFilesystem)
    (dec : List Nat → Option α) : Except String α :=
  let size := leToNat (readBytes fs.mem FREE_MEMORY_BLOCK_SIZE_IDX 8)
  match dec (readBytes fs.mem FREE_MEMORY_BLOCK_START_IDX size) with
  | some v => .ok v
  | none => .error MemoryReader.read_idx.eDeserialize

/-!
Numeric values of the layout constants, and block-count arithmetic.
-/

theorem BLOCK_SIZE_eq : BLOCK_SIZE = 512 := rfl

theorem IDX_BLOCK_SIZE_eq : IDX_BLOCK_SIZE = 40 := rfl

theorem TOPIC_HEIGHT_IDX_eq : TOPIC_HEIGHT_IDX = 8 := rfl

theorem TOPIC_BLOCK_SIZE_IDX_eq : TOPIC_BLOCK_SIZE_IDX = 16 := rfl

theorem TOPIC_BLOCK_DATA_START_IDX_eq : TOPIC_BLOCK_DATA_START_IDX = 24 := rfl

theorem FREE_MEMORY_BLOCK_SIZE_IDX_eq : FREE_MEMORY_BLOCK_SIZE_IDX = 536 := rfl

theorem FREE_MEMORY_BLOCK_START_IDX_eq : FREE_MEMORY_BLOCK_START_IDX = 544 := rfl

theorem FREE_MEMORY_BLOCK_SIZE_eq : FREE_MEMORY_BLOCK_SIZE = 1024 := rfl

theorem IDX_ZONE_IDX_eq : IDX_ZONE_IDX = 1568 := rfl

theorem IDX_SLOT_COUNT_eq : IDX_SLOT_COUNT = 65536 := rfl

theorem IDX_ZONE_END_eq : IDX_ZONE_END = 2623008 := rfl

/-- `get_block_count` is exactly the ceiling of `data_size / BLOCK_SIZE`. -/
theorem get_block_count_eq_ceil (n : Nat) :
    get_block_count n = (n + (BLOCK_SIZE - 1)) / BLOCK_SIZE := by
  simp only [get_block_count, BLOCK_SIZE]
  split <;> omega

theorem get_block_count_pos {n : Nat} (h : n ≠ 0) : 0 < get_block_count n := by
  simp only [get_block_count, BLOCK_SIZE]
  split <;> omega

theorem le_mul_get_block_count (n : Nat) : n ≤ BLOCK_SIZE * get_block_count n := by
  simp only [get_block_count, BLOCK_SIZE]
  split <;> omega

/-!
The write step: explicit form of a successful `write_topic_message`, and
what each byte region of the memory looks like afterwards.
-/

/-- The three primitive write calls issued by a successful
`write_topic_message` at cursor `h`: index record, payload, new height. -/
def writeCalls (h : Nat) (bs : List Nat) (ts : Nat) : List WCall :=
  [{ off := IDX_ZONE_IDX + h * IDX_BLOCK_SIZE,
     data := IndexBlock.encode
       { data_size := bs.length, start_idx := h,
         end_idx := h + get_block_count bs.length, timestamp := ts } },
   { off := IDX_ZONE_END + h * BLOCK_SIZE, data := bs },
   write_block_height_call (h + get_block_count bs.length)]

theorem write_topic_message_some (fs : EventFilesystem) (bs : List Nat) (ts : Nat) :
    fs.write_topic_message (some bs) ts =
      (.ok fs.block_offset, writeCalls fs.block_offset bs ts,
       { mem := applyCalls fs.mem (writeCalls fs.block_offset bs ts),
         block_offset := fs.block_offset + get_block_count bs.length,
         topic_header := fs.topic_header }) := rfl

theorem write_topic_message_none (fs : EventFilesystem) (ts : Nat) :
    fs.write_topic_message none ts = (.error MemoryWriter.write.eSerialize, [], fs) := rfl

/-- Bytes outside the three regions written by one append step are
unchanged. -/
theorem writeCalls_mem_eq (m : Mem) (h : Nat) (bs : List Nat) (ts : Nat) (a : Nat)
    (ha₁ : a < TOPIC_HEIGHT_IDX ∨ TOPIC_HEIGHT_IDX + 8 ≤ a)
    (ha₂ : a < IDX_ZONE_IDX + h * IDX_BLOCK_SIZE ∨ IDX_ZONE_IDX + h * IDX_BLOCK_SIZE + 32 ≤ a)
    (ha₃ : a < IDX_ZONE_END + h * BLOCK_SIZE ∨ IDX_ZONE_END + h * BLOCK_SIZE + bs.length ≤ a) :
    applyCalls m (writeCalls h bs ts) a = m a := by
  simp only [applyCalls, writeCalls, write_block_height_call, List.foldl]
  rw [writeBytes_eq_of_outside, writeBytes_eq_of_outside, writeBytes_eq_of_outside]
  · simpa using ha₂
  · simpa using ha₃
  · simp only [natToLe_length, TOPIC_HEIGHT_IDX] at ha₁ ⊢
    omega

/-- After an append step the height slot holds the new cursor. -/
theorem writeCalls_height_bytes (m : Mem) (h : Nat) (bs : List Nat) (ts : Nat) :
    readBytes (applyCalls m (writeCalls h bs ts)) TOPIC_HEIGHT_IDX 8
      = natToLe 8 (h + get_block_count bs.length) := by
  simp only [applyCalls, writeCalls, write_block_height_call, List.foldl]
  have := readBytes_writeBytes
    (writeBytes (writeBytes m (IDX_ZONE_IDX + h * IDX_BLOCK_SIZE)
        (IndexBlock.encode
          { data_size := bs.length, start_idx := h,
            end_idx := h + get_block_count bs.length, timestamp := ts }))
      (IDX_ZONE_END + h * BLOCK_SIZE) bs)
    TOPIC_HEIGHT_IDX (natToLe 8 (h + get_block_count bs.length))
  simpa using this

theorem writeCalls_read_height (m : Mem) (h : Nat) (bs : List Nat) (ts : Nat)
    (hlt : h + get_block_count bs.length < 2 ^ 64) :
    read_block_height (applyCalls m (writeCalls h bs ts)) = h + get_block_count bs.length := by
  unfold read_block_height
  rw [writeCalls_height_bytes]
  exact leToNat_natToLe_of_lt (by norm_num; omega)

/-- After an append step the cursor's index slot holds the new record. -/
theorem writeCalls_index_bytes (m : Mem) (h : Nat) (bs : List Nat) (ts : Nat) :
    readBytes (applyCalls m (writeCalls h bs ts)) (IDX_ZONE_IDX + h * IDX_BLOCK_SIZE) 32
      = IndexBlock.encode
          { data_size := bs.length, start_idx := h,
            end_idx := h + get_block_count bs.length, timestamp := ts } := by
  simp only [applyCalls, writeCalls, write_block_height_call, List.foldl]
  rw [readBytes_writeBytes_disjoint]
  · rw [readBytes_writeBytes_disjoint]
    · have := readBytes_writeBytes m (IDX_ZONE_IDX + h * IDX_BLOCK_SIZE)
        (IndexBlock.encode
          { data_size := bs.length, start_idx := h,
            end_idx := h + get_block_count bs.length, timestamp := ts })
      simpa using this
    · left
      simp only [IDX_ZONE_IDX_eq, IDX_ZONE_END_eq, IDX_BLOCK_SIZE_eq, BLOCK_SIZE_eq]
      omega
  · right
    simp only [natToLe_length, TOPIC_HEIGHT_IDX_eq, IDX_ZONE_IDX_eq, IDX_BLOCK_SIZE_eq]
    omega

/-- After an append step the payload bytes sit at the cursor's data
blocks. -/
theorem writeCalls_data_bytes (m : Mem) (h : Nat) (bs : List Nat) (ts : Nat) :
    readBytes (applyCalls m (writeCalls h bs ts)) (IDX_ZONE_END + h * BLOCK_SIZE) bs.length
      = bs := by
  simp only [applyCalls, writeCalls, write_block_height_call, List.foldl]
  rw [readBytes_writeBytes_disjoint]
  · exact readBytes_writeBytes _ _ bs
  · right
    simp only [natToLe_length, TOPIC_HEIGHT_IDX_eq, IDX_ZONE_END_eq]
    omega

/-!
A stored message: its index slot holds its record and its data blocks hold
its payload.  This is exactly what the read path consults.
-/

/-- Message `bs`, appended at cursor `id` with timestamp `ts`, is intact in
memory `m`. -/
def msgStored (m : Mem) (id : Nat) (bs : List Nat) (ts : Nat) : Prop :=
  readBytes m (IDX_ZONE_IDX + id * IDX_BLOCK_SIZE) 32
      = IndexBlock.encode
          { data_size := bs.length, start_idx := id,
            end_idx := id + get_block_count bs.length, timestamp := ts }
  ∧ readBytes m (get_data_offset_from_height id) bs.length = bs

theorem writeCalls_msgStored (m : Mem) (h : Nat) (bs : List Nat) (ts : Nat) :
    msgStored (applyCalls m (writeCalls h bs ts)) h bs ts := by
  constructor
  · exact writeCalls_index_bytes m h bs ts
  · simpa [get_data_offset_from_height] using writeCalls_data_bytes m h bs ts

/-- An intact stored message reads back exactly through the reader. -/
theorem msgStored_read {α : Type} {m : Mem} {id : Nat} {bs : List Nat} {ts : Nat}
    (hst : msgStored m id bs ts) (hid : id < 2 ^ 64) (hlen : bs.length < 2 ^ 64)
    {dec : List Nat → Option α} {v : α} (hdec : dec bs = some v) :
    MemoryReader.read_topic_message m dec id = .ok v := by
  have hidx : MemoryReader.read_idx m id
      = .ok { data_size := bs.length, start_idx := id,
              end_idx := (id + get_block_count bs.length) % 2 ^ 64,
              timestamp := ts % 2 ^ 64 } := by
    unfold MemoryReader.read_idx
    rw [Nat.mul_comm IDX_BLOCK_SIZE id, hst.1, IndexBlock.decode_encode_record]
    have h1 : bs.length % 2 ^ 64 = bs.length := Nat.mod_eq_of_lt hlen
    have h2 : id % 2 ^ 64 = id := Nat.mod_eq_of_lt hid
    simp [h1, h2]
    all_goals omega
  unfold MemoryReader.read_topic_message
  rw [hidx]
  simp only
  rw [hst.2, hdec]

/-- A stored message strictly below the cursor survives one further append
step, as long as the cursor's index slot is still inside the index zone. -/
theorem msgStored_step {m : Mem} {id : Nat} {bs₀ : List Nat} {ts₀ : Nat}
    (hst : msgStored m id bs₀ ts₀) (h : Nat) (bs : List Nat) (ts : Nat)
    (hle : id + get_block_count bs₀.length ≤ h)
    (hne : bs₀ ≠ [])
    (hh : h < IDX_SLOT_COUNT) :
    msgStored (applyCalls m (writeCalls h bs ts)) id bs₀ ts₀ := by
  have hpos : 0 < get_block_count bs₀.length :=
    get_block_count_pos (by simpa using hne)
  have hsz := le_mul_get_block_count bs₀.length
  constructor
  · have hcongr : readBytes (applyCalls m (writeCalls h bs ts))
        (IDX_ZONE_IDX + id * IDX_BLOCK_SIZE) 32
        = readBytes m (IDX_ZONE_IDX + id * IDX_BLOCK_SIZE) 32 := by
      apply readBytes_congr
      intro a ha1 ha2
      apply writeCalls_mem_eq
      · simp only [TOPIC_HEIGHT_IDX_eq, IDX_ZONE_IDX_eq, IDX_BLOCK_SIZE_eq] at *
        omega
      · simp only [IDX_ZONE_IDX_eq, IDX_BLOCK_SIZE_eq] at *
        omega
      · simp only [IDX_ZONE_IDX_eq, IDX_BLOCK_SIZE_eq, IDX_ZONE_END_eq, BLOCK_SIZE_eq,
          IDX_SLOT_COUNT_eq] at *
        omega
    rw [hcongr]
    exact hst.1
  · have hcongr2 : readBytes (applyCalls m (writeCalls h bs ts))
        (get_data_offset_from_height id) bs₀.length
        = readBytes m (get_data_offset_from_height id) bs₀.length := by
      apply readBytes_congr
      intro a ha1 ha2
      simp only [get_data_offset_from_height] at ha1 ha2
      apply writeCalls_mem_eq
      · simp only [TOPIC_HEIGHT_IDX_eq, IDX_ZONE_END_eq, BLOCK_SIZE_eq] at *
        omega
      · simp only [IDX_ZONE_IDX_eq, IDX_BLOCK_SIZE_eq, IDX_ZONE_END_eq, BLOCK_SIZE_eq,
          IDX_SLOT_COUNT_eq] at *
        omega
      · simp only [IDX_ZONE_END_eq, BLOCK_SIZE_eq] at *
        omega
    rw [hcongr2]
    exact hst.2

/-!
Appending a list of already-encoded payloads through the engine, with a
fixed clock value 0, as the spec's N-append scenarios do.
-/

/-- Total number of data-zone blocks a list of encoded payloads consumes. -/
def totalBlocks (ps : List (List Nat)) : Nat :=
  (ps.map fun bs => get_block_count bs.length).sum

/-- Append each payload in order through `write_topic_message`, collecting
the returned identifiers. -/
def appendList (fs : EventFilesystem) : List (List Nat) → EventFilesystem × List Nat
  | [] => (fs, [])
  | bs :: rest =>
      let step := fs.write_topic_message (some bs) 0
      match step.1 with
      | .ok id =>
          let next := appendList step.2.2 rest
          (next.1, id :: next.2)
      | .error _ => (step.2.2, [])

theorem appendList_nil (fs : EventFilesystem) : appendList fs [] = (fs, []) := rfl

theorem appendList_cons (fs : EventFilesystem) (bs : List Nat) (rest : List (List Nat)) :
    appendList fs (bs :: rest) =
      ((appendList (fs.write_topic_message (some bs) 0).2.2 rest).1,
       fs.block_offset :: (appendList (fs.write_topic_message (some bs) 0).2.2 rest).2) := by
  simp [appendList, write_topic_message_some]

/-- Main invariant of a run of appends with nonempty encodings, starting
from an engine whose cursor agrees with the persisted height: the cursor
and persisted height advance by the blocks consumed, bytes below the
touched regions are unchanged, previously stored messages survive, and
every payload ends up stored at its returned identifier. -/
theorem appendList_spec (ps : List (List Nat)) (fs : EventFilesystem)
    (hsync : read_block_height fs.mem = fs.block_offset)
    (hbound : fs.block_offset + totalBlocks ps ≤ IDX_SLOT_COUNT)
    (hne : ∀ bs ∈ ps, bs ≠ []) :
    (appendList fs ps).1.block_offset = fs.block_offset + totalBlocks ps
    ∧ read_block_height (appendList fs ps).1.mem = fs.block_offset + totalBlocks ps
    ∧ (∀ a, a < TOPIC_HEIGHT_IDX
          ∨ (TOPIC_HEIGHT_IDX + 8 ≤ a ∧ a < IDX_ZONE_IDX + fs.block_offset * IDX_BLOCK_SIZE) →
        (appendList fs ps).1.mem a = fs.mem a)
    ∧ (∀ id bs₀ ts₀, msgStored fs.mem id bs₀ ts₀ → bs₀ ≠ [] →
        id + get_block_count bs₀.length ≤ fs.block_offset →
        msgStored (appendList fs ps).1.mem id bs₀ ts₀)
    ∧ List.Forall₂
        (fun id bs => id + get_block_count bs.length ≤ fs.block_offset + totalBlocks ps
          ∧ msgStored (appendList fs ps).1.mem id bs 0)
        (appendList fs ps).2 ps := by
  induction ps generalizing fs with
  | nil =>
      refine ⟨by simp [appendList_nil, totalBlocks], by simp [appendList_nil, totalBlocks, hsync], ?_, ?_, ?_⟩
      · intro a _
        simp [appendList_nil]
      · intro id bs₀ ts₀ hst _ _
        simpa [appendList_nil] using hst
      · simp [appendList_nil]
  | cons bs rest ih =>
      have hbs : bs ≠ [] := hne bs (by simp)
      have hbpos : 0 < get_block_count bs.length := get_block_count_pos (by simpa using hbs)
      have htot : totalBlocks (bs :: rest) = get_block_count bs.length + totalBlocks rest := by
        simp [totalBlocks]
      set h := fs.block_offset with hh
      set b := get_block_count bs.length with hb
      have hslot : h < IDX_SLOT_COUNT := by
        rw [htot] at hbound
        omega
      -- the engine after the first append step
      have hstep := write_topic_message_some fs bs 0
      set fs₁ : EventFilesystem :=
        { mem := applyCalls fs.mem (writeCalls h bs 0),
          block_offset := h + b, topic_header := fs.topic_header } with hfs₁
      have hstep22 : (fs.write_topic_message (some bs) 0).2.2 = fs₁ := by
        rw [hstep]
      have hsync₁ : read_block_height fs₁.mem = fs₁.block_offset := by
        rw [hfs₁]
        exact writeCalls_read_height fs.mem h bs 0
          (by rw [IDX_SLOT_COUNT_eq] at hslot hbound; rw [htot] at hbound; omega)
      have hbound₁ : fs₁.block_offset + totalBlocks rest ≤ IDX_SLOT_COUNT := by
        have hoff : fs₁.block_offset = h + b := rfl
        rw [hoff]
        rw [htot] at hbound
        omega
      have hne₁ : ∀ bs₂ ∈ rest, bs₂ ≠ [] := fun bs₂ hmem => hne bs₂ (by simp [hmem])
      obtain ⟨iha, ihb, ihc, ihd, ihe⟩ := ih fs₁ hsync₁ hbound₁ hne₁
      rw [appendList_cons, hstep22]
      have hoff₁ : fs₁.block_offset = h + b := rfl
      refine ⟨?_, ?_, ?_, ?_, ?_⟩
      · rw [iha, hoff₁, htot]
        omega
      · rw [ihb, hoff₁, htot]
        omega
      · intro a ha
        rw [ihc a ?_, hfs₁]
        · apply writeCalls_mem_eq
          · simp only [TOPIC_HEIGHT_IDX_eq] at *
            omega
          · simp only [TOPIC_HEIGHT_IDX_eq, IDX_ZONE_IDX_eq, IDX_BLOCK_SIZE_eq] at *
            omega
          · simp only [TOPIC_HEIGHT_IDX_eq, IDX_ZONE_IDX_eq, IDX_BLOCK_SIZE_eq,
              IDX_ZONE_END_eq, BLOCK_SIZE_eq] at *
            omega
        · rw [hoff₁]
          simp only [TOPIC_HEIGHT_IDX_eq, IDX_ZONE_IDX_eq, IDX_BLOCK_SIZE_eq] at *
          omega
      · intro id bs₀ ts₀ hst hne₀ hle
        apply ihd
        · rw [hfs₁]
          exact msgStored_step hst h bs 0 hle hne₀ hslot
        · exact hne₀
        · rw [hoff₁]
          omega
      · constructor
        · constructor
          · omega
          · apply ihd
            · rw [hfs₁]
              exact writeCalls_msgStored fs.mem h bs 0
            · exact hbs
            · rw [hoff₁]
        · refine List.Forall₂.imp ?_ ihe
          intro id bs₂ hpair
          refine ⟨?_, hpair.2⟩
          rw [hoff₁, htot] at *
          omega

/-!
Bootstrap: behaviour of `get_or_create` on each branch of the magic-number
check.
-/

theorem get_or_create_open (m : Mem) (name : List Nat)
    (hm : is_magic_number_valid m = true) :
    get_or_create m name = get_file_system m := by
  simp [get_or_create, hm]

theorem get_file_system_eq (m : Mem) (th : TopicHeaderBlock)
    (h : read_topic_block m = some th) :
    get_file_system m
      = some { mem := m, block_offset := read_block_height m, topic_header := th } := by
  simp [get_file_system, h]


theorem MAGIC_NUMBER_IDX_eq : MAGIC_NUMBER_IDX = 0 := rfl

theorem TOPIC_BLOCK_MAX_SIZE_eq : TOPIC_BLOCK_MAX_SIZE = 512 := rfl

/-- The memory produced by the create branch of `get_or_create`: magic
number, zero height, header size, header record. -/
def createMem (m : Mem) (name : List Nat) : Mem :=
  writeBytes
    (writeBytes
      (writeBytes (writeBytes m 0 (natToLe 8 TOPIC_HEADER_MAGIC))
        TOPIC_HEIGHT_IDX (natToLe 8 0))
      TOPIC_BLOCK_SIZE_IDX
      (natToLe 8 (TopicHeaderBlock.encode
        { event_stream_name := name, first_message_ptr := 0,
          binary_version := 1000000 }).length))
    TOPIC_BLOCK_DATA_START_IDX
    (TopicHeaderBlock.encode
      { event_stream_name := name, first_message_ptr := 0, binary_version := 1000000 })

theorem write_topic_block_ok (name : List Nat)
    (hname : name.length + 20 ≤ TOPIC_BLOCK_MAX_SIZE) :
    write_topic_block
        { event_stream_name := name, first_message_ptr := 0, binary_version := 1000000 }
      = some [{ off := TOPIC_BLOCK_SIZE_IDX,
                data := natToLe 8 (TopicHeaderBlock.encode
                  { event_stream_name := name, first_message_ptr := 0,
                    binary_version := 1000000 }).length },
              { off := TOPIC_BLOCK_DATA_START_IDX,
                data := TopicHeaderBlock.encode
                  { event_stream_name := name, first_message_ptr := 0,
                    binary_version := 1000000 } }] := by
  have henc : (TopicHeaderBlock.encode
      { event_stream_name := name, first_message_ptr := 0,
        binary_version := 1000000 }).length = name.length + 20 := by
    simp
  unfold write_topic_block
  rw [if_pos (by omega)]

theorem get_or_create_eq_create (m : Mem) (name : List Nat)
    (hm : is_magic_number_valid m = false)
    (hname : name.length + 20 ≤ TOPIC_BLOCK_MAX_SIZE) :
    get_or_create m name
      = some { mem := createMem m name, block_offset := 0,
               topic_header := { event_stream_name := name, first_message_ptr := 0,
                                 binary_version := 1000000 } } := by
  simp [get_or_create, hm, write_topic_block_ok name hname, applyCalls,
    write_magic_number_call, write_block_height_call, createMem]

theorem createMem_magic (m : Mem) (name : List Nat) :
    is_magic_number_valid (createMem m name) = true := by
  unfold is_magic_number_valid createMem
  rw [MAGIC_NUMBER_IDX_eq]
  rw [readBytes_writeBytes_disjoint _ _ _ _ _
    (by left; rw [TOPIC_BLOCK_DATA_START_IDX_eq]; omega)]
  rw [readBytes_writeBytes_disjoint _ _ _ _ _
    (by left; rw [TOPIC_BLOCK_SIZE_IDX_eq]; omega)]
  rw [readBytes_writeBytes_disjoint _ _ _ _ _
    (by left; rw [TOPIC_HEIGHT_IDX_eq]; try omega)]
  have h := readBytes_writeBytes m 0 (natToLe 8 TOPIC_HEADER_MAGIC)
  simp only [natToLe_length] at h
  rw [h, leToNat_natToLe_of_lt (by rw [TOPIC_HEADER_MAGIC]; norm_num)]
  simp

theorem createMem_height (m : Mem) (name : List Nat) :
    read_block_height (createMem m name) = 0 := by
  unfold read_block_height createMem
  rw [readBytes_writeBytes_disjoint _ _ _ _ _
    (by left; rw [TOPIC_HEIGHT_IDX_eq, TOPIC_BLOCK_DATA_START_IDX_eq]; omega)]
  rw [readBytes_writeBytes_disjoint _ _ _ _ _
    (by left; rw [TOPIC_HEIGHT_IDX_eq, TOPIC_BLOCK_SIZE_IDX_eq]; try omega)]
  have h := readBytes_writeBytes (writeBytes m 0 (natToLe 8 TOPIC_HEADER_MAGIC))
    TOPIC_HEIGHT_IDX (natToLe 8 0)
  simp only [natToLe_length] at h
  rw [h, leToNat_natToLe_of_lt (by norm_num)]

theorem createMem_header (m : Mem) (name : List Nat)
    (hname : name.length + 20 ≤ TOPIC_BLOCK_MAX_SIZE) :
    read_topic_block (createMem m name)
      = some { event_stream_name := name, first_message_ptr := 0,
               binary_version := 1000000 } := by
  rw [TOPIC_BLOCK_MAX_SIZE_eq] at hname
  have henc : (TopicHeaderBlock.encode
      { event_stream_name := name, first_message_ptr := 0,
        binary_version := 1000000 }).length = name.length + 20 := by
    simp
  have hsize : readBytes (createMem m name) TOPIC_BLOCK_SIZE_IDX 8
      = natToLe 8 (TopicHeaderBlock.encode
          { event_stream_name := name, first_message_ptr := 0,
            binary_version := 1000000 }).length := by
    unfold createMem
    rw [readBytes_writeBytes_disjoint _ _ _ _ _
      (by left; rw [TOPIC_BLOCK_SIZE_IDX_eq, TOPIC_BLOCK_DATA_START_IDX_eq]; try omega)]
    have h := readBytes_writeBytes
      (writeBytes (writeBytes m 0 (natToLe 8 TOPIC_HEADER_MAGIC))
        TOPIC_HEIGHT_IDX (natToLe 8 0))
      TOPIC_BLOCK_SIZE_IDX
      (natToLe 8 (TopicHeaderBlock.encode
        { event_stream_name := name, first_message_ptr := 0,
          binary_version := 1000000 }).length)
    simpa using h
  have hdata : readBytes (createMem m name) TOPIC_BLOCK_DATA_START_IDX
      (TopicHeaderBlock.encode
        { event_stream_name := name, first_message_ptr := 0,
          binary_version := 1000000 }).length
      = TopicHeaderBlock.encode
          { event_stream_name := name, first_message_ptr := 0,
            binary_version := 1000000 } := by
    unfold createMem
    exact readBytes_writeBytes _ _ _
  simp only [read_topic_block, hsize]
  rw [leToNat_natToLe_of_lt (by rw [henc]; norm_num; omega)]
  rw [hdata]
  rw [TopicHeaderBlock.decode_encode_header _ (by simp; omega)]
  norm_num

theorem createMem_frame (m : Mem) (name : List Nat)
    (hname : name.length + 20 ≤ TOPIC_BLOCK_MAX_SIZE) (a : Nat)
    (ha : FREE_MEMORY_BLOCK_SIZE_IDX ≤ a) :
    createMem m name a = m a := by
  rw [TOPIC_BLOCK_MAX_SIZE_eq] at hname
  rw [FREE_MEMORY_BLOCK_SIZE_IDX_eq] at ha
  unfold createMem
  rw [writeBytes_eq_of_outside _ _ _ _
    (by right; rw [TOPIC_BLOCK_DATA_START_IDX_eq]; simp; omega)]
  rw [writeBytes_eq_of_outside _ _ _ _
    (by right; rw [TOPIC_BLOCK_SIZE_IDX_eq]; simp; omega)]
  rw [writeBytes_eq_of_outside _ _ _ _
    (by right; rw [TOPIC_HEIGHT_IDX_eq]; simp; omega)]
  rw [writeBytes_eq_of_outside _ _ _ _ (by right; simp; omega)]

/-!
Concrete objects for scenarios: a zeroed store, and two payload codecs that
exist in the Rust API (the bincode codecs of `()` and of `u64`).
-/

/-- An engine over the all-zero memory with cursor 0. -/
def zeroFs : EventFilesystem :=
  { mem := zeroMem, block_offset := 0,
    topic_header := { event_stream_name := [], first_message_ptr := 0, binary_version := 0 } }

/-- bincode decoder of the Rust unit type: deserializing `()` consumes no
bytes and succeeds on any buffer, including the empty one. -/
def unitDec : List Nat → Option Unit := fun _ => some ()

/-- bincode encoder of a Rust `u64` payload. -/
def u64Enc : Nat → List Nat := natToLe 8

/-- bincode decoder of a Rust `u64` payload: needs at least 8 bytes, so it
rejects the empty byte string. -/
def u64Dec : List Nat → Option Nat := fun bs =>
  if 8 ≤ bs.length then some (leToNat (bs.take 8)) else none

/-!
The ten claims.
-/

/-- C1: Round-trip: for every serializable value v, appending v via
write_topic_message on a properly set-up engine and then reading it back
with read_topic_message using the returned MessageId yields exactly v.
(`bs` is the bincode encoding of v and `dec` its decoder; the cursor and
payload length are within the identifier space.) -/
theorem round_trip_append_read {α : Type} (fs : EventFilesystem)
    (bs : List Nat) (dec : List Nat → Option α) (v : α) (ts : Nat)
    (id : Nat) (cs : List WCall) (fs' : EventFilesystem)
    (hw : fs.write_topic_message (some bs) ts = (.ok id, cs, fs'))
    (hdec : dec bs = some v)
    (hoff : fs.block_offset < 2 ^ 64) (hlen : bs.length < 2 ^ 64) :
    fs'.read_topic_message dec id = .ok v := by
  rw [write_topic_message_some] at hw
  simp only [Prod.mk.injEq, Except.ok.injEq] at hw
  obtain ⟨hid, hcs, hfs⟩ := hw
  subst hid
  subst hfs
  show MemoryReader.read_topic_message
      (applyCalls fs.mem (writeCalls fs.block_offset bs ts)) dec fs.block_offset
    = Except.ok v
  exact msgStored_read (writeCalls_msgStored fs.mem fs.block_offset bs ts) hoff hlen hdec

theorem round_trip_append_read_witness :
    (zeroFs.write_topic_message (some (u64Enc 5)) 0).2.2.read_topic_message u64Dec 0
      = .ok 5 := by
  apply round_trip_append_read zeroFs (u64Enc 5) u64Dec 5 0 0
    (zeroFs.write_topic_message (some (u64Enc 5)) 0).2.1
    (zeroFs.write_topic_message (some (u64Enc 5)) 0).2.2
  · rfl
  · decide
  · decide
  · decide

/-- C2: Index-zone invariant: every index record produced by a write has
end_idx - start_idx = ceil(data_size / BLOCK_SIZE), and for two
consecutively appended records the end_idx of the earlier equals the
start_idx of the later. -/
theorem index_zone_invariant (w : MemoryWriter) (bs₁ bs₂ : List Nat) (ts₁ ts₂ : Nat)
    (idx₁ idx₂ : IndexBlock) (cs₁ cs₂ : List WCall) (w₁ w₂ : MemoryWriter)
    (h₁ : w.write (some bs₁) ts₁ = .ok (idx₁, cs₁, w₁))
    (h₂ : w₁.write (some bs₂) ts₂ = .ok (idx₂, cs₂, w₂)) :
    idx₁.end_idx - idx₁.start_idx = (idx₁.data_size + (BLOCK_SIZE - 1)) / BLOCK_SIZE
    ∧ idx₂.end_idx - idx₂.start_idx = (idx₂.data_size + (BLOCK_SIZE - 1)) / BLOCK_SIZE
    ∧ idx₂.start_idx = idx₁.end_idx := by
  simp only [MemoryWriter.write, Except.ok.injEq, Prod.mk.injEq] at h₁ h₂
  obtain ⟨hidx₁, hcs₁, hw₁⟩ := h₁
  obtain ⟨hidx₂, hcs₂, hw₂⟩ := h₂
  subst hidx₁
  subst hidx₂
  subst hw₁
  refine ⟨?_, ?_, ?_⟩
  · simp [← get_block_count_eq_ceil]
  · simp [← get_block_count_eq_ceil]
  · rfl

theorem index_zone_invariant_witness :
    (IndexBlock.mk 1 0 1 0).end_idx - (IndexBlock.mk 1 0 1 0).start_idx
        = ((IndexBlock.mk 1 0 1 0).data_size + (BLOCK_SIZE - 1)) / BLOCK_SIZE
    ∧ (IndexBlock.mk 2 1 2 0).end_idx - (IndexBlock.mk 2 1 2 0).start_idx
        = ((IndexBlock.mk 2 1 2 0).data_size + (BLOCK_SIZE - 1)) / BLOCK_SIZE
    ∧ (IndexBlock.mk 2 1 2 0).start_idx = (IndexBlock.mk 1 0 1 0).end_idx := by
  exact index_zone_invariant (MemoryWriter.mk 0) [1] [2, 3] 0 0 _ _ _ _ _ _ rfl rfl

/-- C4: Failed-append atomicity: when write_topic_message fails, the
failure is detected before any memory-primitive write is issued (the call
list is empty), the store is not mutated at all, and get_topic_height
returns the same value as before. -/
theorem failed_append_atomic (fs : EventFilesystem) (enc : Option (List Nat)) (ts : Nat)
    (e : String) (h : (fs.write_topic_message enc ts).1 = .error e) :
    (fs.write_topic_message enc ts).2.1 = []
    ∧ (fs.write_topic_message enc ts).2.2 = fs
    ∧ (fs.write_topic_message enc ts).2.2.get_topic_height = fs.get_topic_height := by
  cases enc with
  | none => exact ⟨rfl, rfl, rfl⟩
  | some bs =>
      rw [write_topic_message_some] at h
      simp at h

theorem failed_append_atomic_witness :
    (zeroFs.write_topic_message none 0).2.1 = []
    ∧ (zeroFs.write_topic_message none 0).2.2 = zeroFs
    ∧ (zeroFs.write_topic_message none 0).2.2.get_topic_height = zeroFs.get_topic_height :=
  failed_append_atomic zeroFs none 0 MemoryWriter.write.eSerialize rfl

/-- C6: Write ordering for crash safety: within one successful
write_topic_message the index-record write and the payload write are both
issued strictly before the height-slot write, and after applying only the
first two calls the persisted height is unchanged. -/
theorem write_ordering_height_last (fs : EventFilesystem) (bs : List Nat) (ts : Nat) :
    ∃ c₁ c₂ c₃ : WCall,
      (fs.write_topic_message (some bs) ts).2.1 = [c₁, c₂, c₃]
      ∧ c₁.off = IDX_ZONE_IDX + fs.block_offset * IDX_BLOCK_SIZE
      ∧ c₂.off = IDX_ZONE_END + fs.block_offset * BLOCK_SIZE
      ∧ c₃.off = TOPIC_HEIGHT_IDX
      ∧ read_block_height (applyCalls fs.mem [c₁, c₂]) = read_block_height fs.mem := by
  refine ⟨{ off := IDX_ZONE_IDX + fs.block_offset * IDX_BLOCK_SIZE,
            data := IndexBlock.encode
              { data_size := bs.length, start_idx := fs.block_offset,
                end_idx := fs.block_offset + get_block_count bs.length, timestamp := ts } },
          { off := IDX_ZONE_END + fs.block_offset * BLOCK_SIZE, data := bs },
          write_block_height_call (fs.block_offset + get_block_count bs.length),
          ?g1, rfl, rfl, rfl, ?g5⟩
  case g1 =>
    rw [write_topic_message_some]
    rfl
  case g5 =>
    unfold read_block_height
    apply congrArg
    apply readBytes_congr
    intro a ha1 ha2
    simp only [applyCalls, List.foldl]
    rw [writeBytes_eq_of_outside _ _ _ _ ?d2, writeBytes_eq_of_outside _ _ _ _ ?d1]
    case d1 =>
      left
      simp only [TOPIC_HEIGHT_IDX_eq, IDX_ZONE_IDX_eq] at *
      omega
    case d2 =>
      left
      simp only [TOPIC_HEIGHT_IDX_eq, IDX_ZONE_END_eq] at *
      omega

/-- C3 counterexample: on a fresh engine, a payload whose bincode encoding
is empty (e.g. the Rust unit type, 0 bytes) consumes zero blocks — the
code never forces blocks to at least 1 — so two consecutive successful
writes both return MessageId 0, refuting strictly increasing
identifiers. -/
theorem monotonic_ids_counterexample :
    ¬ (∀ id₁ id₂ : Nat,
        (zeroFs.write_topic_message (some []) 0).1 = .ok id₁ →
        ((zeroFs.write_topic_message (some []) 0).2.2.write_topic_message (some []) 0).1
          = .ok id₂ →
        id₁ < id₂) := by
  intro hcl
  have h12 : (zeroFs.write_topic_message (some []) 0).1 = .ok 0 := rfl
  have h22 : ((zeroFs.write_topic_message (some []) 0).2.2.write_topic_message
      (some []) 0).1 = .ok 0 := rfl
  have h := hcl 0 0 h12 h22
  omega

/-- C3 (amended): for consecutive successful write_topic_message calls
whose encoded payloads are nonempty, the returned MessageIds strictly
increase and each equals get_topic_height immediately before that call
(the engine cursor agreeing with the persisted height, which every engine
operation maintains); a payload with an empty encoding consumes zero
blocks, so its identifier is repeated by the next write. -/
theorem monotonic_ids_amended (fs : EventFilesystem) (bs₁ bs₂ : List Nat) (ts₁ ts₂ : Nat)
    (id₁ id₂ : Nat) (cs₁ cs₂ : List WCall) (fs₁ fs₂ : EventFilesystem)
    (hsync : fs.block_offset = fs.get_topic_height)
    (hne₁ : bs₁ ≠ [])
    (hfit : fs.block_offset + get_block_count bs₁.length < 2 ^ 64)
    (hw₁ : fs.write_topic_message (some bs₁) ts₁ = (.ok id₁, cs₁, fs₁))
    (hw₂ : fs₁.write_topic_message (some bs₂) ts₂ = (.ok id₂, cs₂, fs₂)) :
    id₁ = fs.get_topic_height ∧ id₂ = fs₁.get_topic_height ∧ id₁ < id₂ := by
  rw [write_topic_message_some] at hw₁
  simp only [Prod.mk.injEq, Except.ok.injEq] at hw₁
  obtain ⟨hid₁, hcs₁, hfs₁⟩ := hw₁
  rw [write_topic_message_some] at hw₂
  simp only [Prod.mk.injEq, Except.ok.injEq] at hw₂
  obtain ⟨hid₂, hcs₂, hfs₂⟩ := hw₂
  subst hid₁
  subst hid₂
  have hpos : 0 < get_block_count bs₁.length := get_block_count_pos (by simpa using hne₁)
  have hht₁ : fs₁.get_topic_height = fs.block_offset + get_block_count bs₁.length := by
    rw [← hfs₁]
    exact writeCalls_read_height fs.mem fs.block_offset bs₁ ts₁ hfit
  have hoff₁ : fs₁.block_offset = fs.block_offset + get_block_count bs₁.length := by
    rw [← hfs₁]
  refine ⟨hsync, ?_, ?_⟩
  · rw [hht₁, hoff₁]
  · rw [hoff₁]
    omega

theorem monotonic_ids_amended_witness :
    (0 : Nat) = zeroFs.get_topic_height
    ∧ (1 : Nat) = (zeroFs.write_topic_message (some [1]) 0).2.2.get_topic_height
    ∧ (0 : Nat) < 1 := by
  exact monotonic_ids_amended zeroFs [1] [2] 0 0 0 1
    (zeroFs.write_topic_message (some [1]) 0).2.1
    ((zeroFs.write_topic_message (some [1]) 0).2.2.write_topic_message (some [2]) 0).2.1
    (zeroFs.write_topic_message (some [1]) 0).2.2
    ((zeroFs.write_topic_message (some [1]) 0).2.2.write_topic_message (some [2]) 0).2.2
    (by decide) (by decide) (by decide) rfl rfl

/-- A memory holding a valid magic number but an all-zero header area: the
header-size slot reads 0 and the header record fails to decode, so opening
unwraps a decode failure. -/
def corruptHeaderMem : Mem := writeBytes zeroMem 0 (natToLe 8 TOPIC_HEADER_MAGIC)

/-- C7 counterexample: a decode error during open is a process abort
(`read_topic_block` unwraps), not an explicit result value, even though no
header-record overflow is involved: the magic number is valid, the header
area is merely unreadable. -/
theorem abort_on_open_counterexample :
    is_magic_number_valid corruptHeaderMem = true
    ∧ get_or_create corruptHeaderMem [] = none := by
  constructor
  · decide
  · rfl

/-- C7 (amended): the engine operations return errors as explicit result
values; the hard failures (process aborts) are exactly two: the
header-overflow assertion in write_topic_block on the create path, and the
header-record decode unwrap in read_topic_block on the open path. -/
theorem abort_surface_characterization (m : Mem) (name : List Nat)
    (h : get_or_create m name = none) :
    (is_magic_number_valid m = true ∧ read_topic_block m = none)
    ∨ (is_magic_number_valid m = false
        ∧ TOPIC_BLOCK_MAX_SIZE
            < (TopicHeaderBlock.encode
                { event_stream_name := name, first_message_ptr := 0,
                  binary_version := 1000000 }).length) := by
  by_cases hb : is_magic_number_valid m = true
  · left
    refine ⟨hb, ?_⟩
    rw [get_or_create_open m name hb] at h
    unfold get_file_system at h
    cases hrtb : read_topic_block m with
    | some th =>
        rw [hrtb] at h
        simp at h
    | none => rfl
  · right
    have hb' : is_magic_number_valid m = false := by simpa using hb
    refine ⟨hb', ?_⟩
    by_contra hlen
    push_neg at hlen
    have henc : (TopicHeaderBlock.encode
        { event_stream_name := name, first_message_ptr := 0,
          binary_version := 1000000 }).length = name.length + 20 := by
      simp
    have hc := get_or_create_eq_create m name hb' (by omega)
    rw [hc] at h
    exact Option.noConfusion h

theorem abort_surface_characterization_witness :
    (is_magic_number_valid corruptHeaderMem = true
      ∧ read_topic_block corruptHeaderMem = none)
    ∨ (is_magic_number_valid corruptHeaderMem = false
        ∧ TOPIC_BLOCK_MAX_SIZE
            < (TopicHeaderBlock.encode
                { event_stream_name := [5], first_message_ptr := 0,
                  binary_version := 1000000 }).length) :=
  abort_surface_characterization corruptHeaderMem [5] rfl

/-- C9 counterexample: on the all-zero store, the index slot of the
never-written identifier 5 decodes (as the authoritative 32-byte record)
to the all-zero record, the payload read is then zero bytes at block 0,
and the decoder of the Rust unit type accepts the empty buffer, so
read_topic_message returns a value instead of an error. -/
theorem unwritten_slot_read_counterexample :
    zeroFs.read_topic_message unitDec 5 = .ok () := rfl

/-- C9 (amended): for an identifier whose index-zone slot bytes are all
zero, the decoded record is the zero record, so the read returns the
decode of the empty byte string: it errors exactly for payload decoders
that reject zero bytes (String, u64, vectors), and in particular for every
decoder with dec [] = none. -/
theorem unwritten_slot_read (m : Mem) (id : Nat) {α : Type} (dec : List Nat → Option α)
    (hz : readBytes m (IDX_ZONE_IDX + IDX_BLOCK_SIZE * id) 32 = List.replicate 32 0)
    (hdec : dec [] = none) :
    MemoryReader.read_topic_message m dec id
      = .error MemoryReader.read_idx.eDeserialize := by
  unfold MemoryReader.read_topic_message MemoryReader.read_idx
  rw [hz, IndexBlock.decode_replicate_zero]
  have h0 : readBytes m (get_data_offset_from_height 0) 0 = [] := rfl
  simp only [h0, hdec]

theorem unwritten_slot_read_witness :
    MemoryReader.read_topic_message zeroMem u64Dec 3
      = .error MemoryReader.read_idx.eDeserialize :=
  unwritten_slot_read zeroMem 3 u64Dec (readBytes_zeroMem _ 32) rfl

/-!
Snapshot slot: step equations and the restore-after-store law.
-/

theorem stable_store_some (fs : EventFilesystem) (bs : List Nat)
    (h : bs.length ≤ FREE_MEMORY_BLOCK_SIZE) :
    fs.stable_store (some bs) =
      (.ok (), [{ off := FREE_MEMORY_BLOCK_SIZE_IDX, data := natToLe 8 bs.length },
                { off := FREE_MEMORY_BLOCK_START_IDX, data := bs }],
       { mem := writeBytes (writeBytes fs.mem FREE_MEMORY_BLOCK_SIZE_IDX (natToLe 8 bs.length))
                  FREE_MEMORY_BLOCK_START_IDX bs,
         block_offset := fs.block_offset, topic_header := fs.topic_header }) := by
  simp only [EventFilesystem.stable_store]
  rw [if_neg (by omega)]
  rfl

theorem stable_store_restore {α : Type} (fs : EventFilesystem) (bs : List Nat) (v : α)
    (dec : List Nat → Option α)
    (hlen : bs.length ≤ FREE_MEMORY_BLOCK_SIZE) (hdec : dec bs = some v) :
    (fs.stable_store (some bs)).2.2.stable_restore dec = .ok v := by
  rw [stable_store_some fs bs hlen]
  unfold EventFilesystem.stable_restore
  have hsz : readBytes
      (writeBytes (writeBytes fs.mem FREE_MEMORY_BLOCK_SIZE_IDX (natToLe 8 bs.length))
        FREE_MEMORY_BLOCK_START_IDX bs)
      FREE_MEMORY_BLOCK_SIZE_IDX 8 = natToLe 8 bs.length := by
    rw [readBytes_writeBytes_disjoint _ _ _ _ _
      (by left; rw [FREE_MEMORY_BLOCK_SIZE_IDX_eq, FREE_MEMORY_BLOCK_START_IDX_eq]; try omega)]
    have := readBytes_writeBytes fs.mem FREE_MEMORY_BLOCK_SIZE_IDX (natToLe 8 bs.length)
    simpa using this
  simp only [hsz]
  rw [leToNat_natToLe_of_lt
    (by rw [FREE_MEMORY_BLOCK_SIZE_eq] at hlen; norm_num; omega)]
  have hdata : readBytes
      (writeBytes (writeBytes fs.mem FREE_MEMORY_BLOCK_SIZE_IDX (natToLe 8 bs.length))
        FREE_MEMORY_BLOCK_START_IDX bs)
      FREE_MEMORY_BLOCK_START_IDX bs.length = bs :=
    readBytes_writeBytes _ _ bs
  simp only [hdata, hdec]

/-- C8 counterexample: on the all-zero store (no stable_store ever issued)
the size field reads 0, the blob reads as the empty byte string, and the
bincode decoder of the Rust unit type accepts it, so stable_restore
succeeds instead of failing. -/
theorem snapshot_get_before_put_counterexample :
    zeroFs.stable_restore unitDec = .ok () := rfl

/-- C8 (amended): snapshot slot semantics: on a store whose size field is
zero (fresh), stable_restore fails for every payload decoder that rejects
the empty byte string (for a decoder accepting zero bytes, such as the
unit type, it returns that value instead); after a successful
stable_store of an encoding within the slot capacity, stable_restore
returns exactly the stored value; a second stable_store fully replaces the
prior blob at the interface; and stable_store rejects an encoding larger
than the capacity with a too-large error before issuing any memory
write. -/
theorem snapshot_slot_semantics {α : Type} (fs : EventFilesystem)
    (dec : List Nat → Option α) :
    (leToNat (readBytes fs.mem FREE_MEMORY_BLOCK_SIZE_IDX 8) = 0 → dec [] = none →
      fs.stable_restore dec = .error MemoryReader.read_idx.eDeserialize)
    ∧ (∀ bs v, bs.length ≤ FREE_MEMORY_BLOCK_SIZE → dec bs = some v →
        (fs.stable_store (some bs)).1 = .ok ()
        ∧ (fs.stable_store (some bs)).2.2.stable_restore dec = .ok v)
    ∧ (∀ bs₁ bs₂ v₂, bs₁.length ≤ FREE_MEMORY_BLOCK_SIZE →
        bs₂.length ≤ FREE_MEMORY_BLOCK_SIZE → dec bs₂ = some v₂ →
        ((fs.stable_store (some bs₁)).2.2.stable_store (some bs₂)).2.2.stable_restore dec
          = .ok v₂)
    ∧ (∀ bs, FREE_MEMORY_BLOCK_SIZE < bs.length →
        (fs.stable_store (some bs)).1 = .error EventFilesystem.stable_store.eTooLarge
        ∧ (fs.stable_store (some bs)).2.1 = []
        ∧ (fs.stable_store (some bs)).2.2 = fs) := by
  refine ⟨?_, ?_, ?_, ?_⟩
  · intro hsz hdec
    unfold EventFilesystem.stable_restore
    rw [hsz]
    have h0 : readBytes fs.mem FREE_MEMORY_BLOCK_START_IDX 0 = [] := rfl
    simp only [h0, hdec]
  · intro bs v hlen hdec
    exact ⟨by rw [stable_store_some fs bs hlen], stable_store_restore fs bs v dec hlen hdec⟩
  · intro bs₁ bs₂ v₂ hlen₁ hlen₂ hdec₂
    exact stable_store_restore (fs.stable_store (some bs₁)).2.2 bs₂ v₂ dec hlen₂ hdec₂
  · intro bs hlen
    have hstep : fs.stable_store (some bs)
        = (.error EventFilesystem.stable_store.eTooLarge, [], fs) := by
      simp only [EventFilesystem.stable_store]
      rw [if_pos (by omega)]
    rw [hstep]
    exact ⟨rfl, rfl, rfl⟩

theorem snapshot_slot_semantics_witness :
    zeroFs.stable_restore u64Dec = .error MemoryReader.read_idx.eDeserialize
    ∧ ((zeroFs.stable_store (some (u64Enc 9))).1 = .ok ()
        ∧ (zeroFs.stable_store (some (u64Enc 9))).2.2.stable_restore u64Dec = .ok 9)
    ∧ (((zeroFs.stable_store (some (u64Enc 7))).2.2.stable_store
          (some (u64Enc 9))).2.2.stable_restore u64Dec = .ok 9)
    ∧ ((zeroFs.stable_store (some (List.replicate 1025 1))).1
          = .error EventFilesystem.stable_store.eTooLarge
        ∧ (zeroFs.stable_store (some (List.replicate 1025 1))).2.1 = []
        ∧ (zeroFs.stable_store (some (List.replicate 1025 1))).2.2 = zeroFs) := by
  obtain ⟨h1, h2, h3, h4⟩ := snapshot_slot_semantics zeroFs u64Dec
  exact ⟨h1 (by decide) (by decide),
         h2 (u64Enc 9) 9 (by decide) (by decide),
         h3 (u64Enc 7) (u64Enc 9) 9 (by decide) (by decide) (by decide),
         h4 (List.replicate 1025 1)
           (by rw [List.length_replicate, FREE_MEMORY_BLOCK_SIZE_eq]; omega)⟩

/-- Reads of the topic log depend only on bytes at or above the index-zone
origin. -/
theorem read_topic_message_congr {α : Type} (m₁ m₂ : Mem)
    (dec : List Nat → Option α) (id : Nat)
    (h : ∀ a, IDX_ZONE_IDX ≤ a → m₁ a = m₂ a) :
    MemoryReader.read_topic_message m₁ dec id
      = MemoryReader.read_topic_message m₂ dec id := by
  unfold MemoryReader.read_topic_message MemoryReader.read_idx
  have h32 : readBytes m₁ (IDX_ZONE_IDX + IDX_BLOCK_SIZE * id) 32
      = readBytes m₂ (IDX_ZONE_IDX + IDX_BLOCK_SIZE * id) 32 :=
    readBytes_congr _ _ (fun a ha1 ha2 => h a (by omega))
  rw [h32]
  cases hdec : IndexBlock.decode (readBytes m₂ (IDX_ZONE_IDX + IDX_BLOCK_SIZE * id) 32) with
  | none => rfl
  | some idx =>
      have hd : readBytes m₁ (get_data_offset_from_height idx.start_idx) idx.data_size
          = readBytes m₂ (get_data_offset_from_height idx.start_idx) idx.data_size := by
        apply readBytes_congr
        intro a ha1 ha2
        apply h
        rw [get_data_offset_from_height, IDX_ZONE_END_eq, IDX_ZONE_IDX_eq] at *
        omega
      simp only [hd]

/-- C10: Snapshot/log isolation (frame): a successful stable_store of a
blob within the slot capacity writes only the free-memory slot's size
field and data area; the persisted height and the result of
read_topic_message for every identifier are identical before and after. -/
theorem snapshot_frame {α : Type} (fs : EventFilesystem) (bs : List Nat)
    (dec : List Nat → Option α)
    (hlen : bs.length ≤ FREE_MEMORY_BLOCK_SIZE) :
    (fs.stable_store (some bs)).1 = .ok ()
    ∧ (∀ a, a < FREE_MEMORY_BLOCK_SIZE_IDX ∨ FREE_MEMORY_BLOCK_START_IDX + bs.length ≤ a →
        (fs.stable_store (some bs)).2.2.mem a = fs.mem a)
    ∧ (fs.stable_store (some bs)).2.2.get_topic_height = fs.get_topic_height
    ∧ (∀ id, (fs.stable_store (some bs)).2.2.read_topic_message dec id
        = fs.read_topic_message dec id) := by
  rw [stable_store_some fs bs hlen]
  have hframe : ∀ a,
      a < FREE_MEMORY_BLOCK_SIZE_IDX ∨ FREE_MEMORY_BLOCK_START_IDX + bs.length ≤ a →
      writeBytes (writeBytes fs.mem FREE_MEMORY_BLOCK_SIZE_IDX (natToLe 8 bs.length))
          FREE_MEMORY_BLOCK_START_IDX bs a
        = fs.mem a := by
    intro a ha
    rw [writeBytes_eq_of_outside _ _ _ _
      (by rw [FREE_MEMORY_BLOCK_SIZE_IDX_eq, FREE_MEMORY_BLOCK_START_IDX_eq] at *; omega)]
    rw [writeBytes_eq_of_outside _ _ _ _
      (by simp only [natToLe_length]
          rw [FREE_MEMORY_BLOCK_SIZE_IDX_eq, FREE_MEMORY_BLOCK_START_IDX_eq] at *
          omega)]
  refine ⟨rfl, hframe, ?_, ?_⟩
  · show read_block_height _ = read_block_height fs.mem
    unfold read_block_height
    apply congrArg
    apply readBytes_congr
    intro a ha1 ha2
    apply hframe
    rw [TOPIC_HEIGHT_IDX_eq] at *
    rw [FREE_MEMORY_BLOCK_SIZE_IDX_eq]
    omega
  · intro id
    show MemoryReader.read_topic_message _ dec id = MemoryReader.read_topic_message fs.mem dec id
    apply read_topic_message_congr
    intro a ha
    apply hframe
    rw [IDX_ZONE_IDX_eq] at ha
    rw [FREE_MEMORY_BLOCK_START_IDX_eq, FREE_MEMORY_BLOCK_SIZE_eq] at *
    omega

theorem snapshot_frame_witness :
    (zeroFs.stable_store (some [1, 2, 3])).1 = .ok ()
    ∧ (∀ a, a < FREE_MEMORY_BLOCK_SIZE_IDX
          ∨ FREE_MEMORY_BLOCK_START_IDX + [1, 2, 3].length ≤ a →
        (zeroFs.stable_store (some [1, 2, 3])).2.2.mem a = zeroFs.mem a)
    ∧ (zeroFs.stable_store (some [1, 2, 3])).2.2.get_topic_height = zeroFs.get_topic_height
    ∧ (∀ id, (zeroFs.stable_store (some [1, 2, 3])).2.2.read_topic_message u64Dec id
        = zeroFs.read_topic_message u64Dec id) :=
  snapshot_frame zeroFs [1, 2, 3] u64Dec (by decide)

theorem createMem_size_bytes (m : Mem) (name : List Nat) :
    readBytes (createMem m name) TOPIC_BLOCK_SIZE_IDX 8
      = natToLe 8 (TopicHeaderBlock.encode
          { event_stream_name := name, first_message_ptr := 0,
            binary_version := 1000000 }).length := by
  unfold createMem
  rw [readBytes_writeBytes_disjoint _ _ _ _ _
    (by left; rw [TOPIC_BLOCK_SIZE_IDX_eq, TOPIC_BLOCK_DATA_START_IDX_eq]; try omega)]
  have h := readBytes_writeBytes
    (writeBytes (writeBytes m 0 (natToLe 8 TOPIC_HEADER_MAGIC))
      TOPIC_HEIGHT_IDX (natToLe 8 0))
    TOPIC_BLOCK_SIZE_IDX
    (natToLe 8 (TopicHeaderBlock.encode
      { event_stream_name := name, first_message_ptr := 0,
        binary_version := 1000000 }).length)
  simpa using h

theorem createMem_data_bytes (m : Mem) (name : List Nat) :
    readBytes (createMem m name) TOPIC_BLOCK_DATA_START_IDX
      (TopicHeaderBlock.encode
        { event_stream_name := name, first_message_ptr := 0,
          binary_version := 1000000 }).length
      = TopicHeaderBlock.encode
          { event_stream_name := name, first_message_ptr := 0,
            binary_version := 1000000 } := by
  unfold createMem
  exact readBytes_writeBytes _ _ _

/-- C5: Bootstrap and recovery: get_or_create reads the magic-number slot;
if it equals 123246369 it opens the existing store, reloading the
persisted header and write-height; otherwise it writes the magic number, a
zero height, and a freshly built header record with the supplied stream
name and starts with cursor 0.  After N appends (of nonempty encodings,
within the index-zone capacity) and a reopen over the same memory,
get_topic_height equals the number of blocks consumed and every previously
returned identifier still reads back its exact value. -/
theorem bootstrap_and_recovery (m : Mem) (name : List Nat) :
    (is_magic_number_valid m = true → get_or_create m name = get_file_system m)
    ∧ (∀ fs, is_magic_number_valid m = true → get_or_create m name = some fs →
        fs.mem = m ∧ fs.block_offset = read_block_height m
          ∧ read_topic_block m = some fs.topic_header)
    ∧ (is_magic_number_valid m = false → name.length + 20 ≤ TOPIC_BLOCK_MAX_SIZE →
        get_or_create m name
          = some { mem := createMem m name, block_offset := 0,
                   topic_header := { event_stream_name := name, first_message_ptr := 0,
                                     binary_version := 1000000 } }
        ∧ is_magic_number_valid (createMem m name) = true
        ∧ read_block_height (createMem m name) = 0
        ∧ read_topic_block (createMem m name)
            = some { event_stream_name := name, first_message_ptr := 0,
                     binary_version := 1000000 })
    ∧ (∀ ps fs₀, is_magic_number_valid m = false →
        name.length + 20 ≤ TOPIC_BLOCK_MAX_SIZE →
        get_or_create m name = some fs₀ →
        (∀ bs ∈ ps, bs ≠ []) → totalBlocks ps ≤ IDX_SLOT_COUNT →
        ∀ name₂, ∃ fs₂,
          get_or_create (appendList fs₀ ps).1.mem name₂ = some fs₂
          ∧ fs₂.get_topic_height = totalBlocks ps
          ∧ fs₂.mem = (appendList fs₀ ps).1.mem
          ∧ List.Forall₂
              (fun id bs => ∀ (β : Type) (dec : List Nat → Option β) (v : β),
                dec bs = some v → fs₂.read_topic_message dec id = Except.ok v)
              (appendList fs₀ ps).2 ps) := by
  refine ⟨?copen, ?copen2, ?ccreate, ?crecover⟩
  case copen =>
    intro hb
    exact get_or_create_open m name hb
  case copen2 =>
    intro fs hb hfs
    rw [get_or_create_open m name hb] at hfs
    unfold get_file_system at hfs
    cases hrtb : read_topic_block m with
    | none =>
        rw [hrtb] at hfs
        exact Option.noConfusion hfs
    | some th =>
        rw [hrtb] at hfs
        simp only [Option.some.injEq] at hfs
        subst hfs
        exact ⟨rfl, rfl, rfl⟩
  case ccreate =>
    intro hb hname
    exact ⟨get_or_create_eq_create m name hb hname, createMem_magic m name,
      createMem_height m name, createMem_header m name hname⟩
  case crecover =>
    intro ps fs₀ hb hname hfs₀ hne htot name₂
    rw [get_or_create_eq_create m name hb hname] at hfs₀
    simp only [Option.some.injEq] at hfs₀
    have hmem₀ : fs₀.mem = createMem m name := by rw [← hfs₀]
    have hoff₀ : fs₀.block_offset = 0 := by rw [← hfs₀]
    have hsync₀ : read_block_height fs₀.mem = fs₀.block_offset := by
      rw [hmem₀, hoff₀]
      exact createMem_height m name
    have hbound₀ : fs₀.block_offset + totalBlocks ps ≤ IDX_SLOT_COUNT := by
      rw [hoff₀]
      omega
    obtain ⟨ha, hb2, hc2, hd2, he2⟩ := appendList_spec ps fs₀ hsync₀ hbound₀ hne
    have hmagicN : is_magic_number_valid (appendList fs₀ ps).1.mem = true := by
      unfold is_magic_number_valid
      have hmg : readBytes (appendList fs₀ ps).1.mem MAGIC_NUMBER_IDX 8
          = readBytes fs₀.mem MAGIC_NUMBER_IDX 8 := by
        apply readBytes_congr
        intro a h1 h2
        apply hc2
        left
        rw [MAGIC_NUMBER_IDX_eq] at h2
        rw [TOPIC_HEIGHT_IDX_eq]
        omega
      rw [hmg, hmem₀]
      have := createMem_magic m name
      unfold is_magic_number_valid at this
      exact this
    have henc : (TopicHeaderBlock.encode
        { event_stream_name := name, first_message_ptr := 0,
          binary_version := 1000000 }).length = name.length + 20 := by
      simp
    have hsizeN : readBytes (appendList fs₀ ps).1.mem TOPIC_BLOCK_SIZE_IDX 8
        = readBytes fs₀.mem TOPIC_BLOCK_SIZE_IDX 8 := by
      apply readBytes_congr
      intro a h1 h2
      apply hc2
      right
      rw [TOPIC_BLOCK_SIZE_IDX_eq] at h1 h2
      rw [TOPIC_HEIGHT_IDX_eq, IDX_ZONE_IDX_eq]
      omega
    have hdataN : readBytes (appendList fs₀ ps).1.mem TOPIC_BLOCK_DATA_START_IDX
        (name.length + 20)
        = readBytes fs₀.mem TOPIC_BLOCK_DATA_START_IDX (name.length + 20) := by
      apply readBytes_congr
      intro a h1 h2
      apply hc2
      right
      rw [TOPIC_BLOCK_DATA_START_IDX_eq] at h1 h2
      rw [TOPIC_BLOCK_MAX_SIZE_eq] at hname
      rw [TOPIC_HEIGHT_IDX_eq, IDX_ZONE_IDX_eq]
      omega
    have hhdrN : read_topic_block (appendList fs₀ ps).1.mem
        = some { event_stream_name := name, first_message_ptr := 0,
                 binary_version := 1000000 } := by
      have hszv : leToNat (readBytes (appendList fs₀ ps).1.mem TOPIC_BLOCK_SIZE_IDX 8)
          = name.length + 20 := by
        rw [hsizeN, hmem₀, createMem_size_bytes,
          leToNat_natToLe_of_lt
            (by rw [henc]; rw [TOPIC_BLOCK_MAX_SIZE_eq] at hname; norm_num; omega),
          henc]
      simp only [read_topic_block, hszv]
      rw [hdataN, hmem₀]
      have hd := createMem_data_bytes m name
      rw [henc] at hd
      rw [hd]
      rw [TopicHeaderBlock.decode_encode_header _
        (by simp; rw [TOPIC_BLOCK_MAX_SIZE_eq] at hname; omega)]
      norm_num
    refine ⟨{ mem := (appendList fs₀ ps).1.mem,
              block_offset := read_block_height (appendList fs₀ ps).1.mem,
              topic_header := { event_stream_name := name, first_message_ptr := 0,
                                binary_version := 1000000 } }, ?_, ?_, rfl, ?_⟩
    · rw [get_or_create_open _ name₂ hmagicN]
      exact get_file_system_eq _ _ hhdrN
    · show read_block_height (appendList fs₀ ps).1.mem = totalBlocks ps
      rw [hb2, hoff₀]
      omega
    · refine List.Forall₂.imp ?_ he2
      intro id bs hpair
      intro β dec v hdec
      obtain ⟨hle, hst⟩ := hpair
      rw [hoff₀] at hle
      have hgbc : bs.length ≤ BLOCK_SIZE * get_block_count bs.length :=
        le_mul_get_block_count bs.length
      rw [BLOCK_SIZE_eq] at hgbc
      rw [IDX_SLOT_COUNT_eq] at htot
      show MemoryReader.read_topic_message (appendList fs₀ ps).1.mem dec id = Except.ok v
      exact msgStored_read hst (by omega) (by omega) hdec

/-- A freshly created engine over the zeroed store with stream name
byte 116. -/
def fs0c5 : EventFilesystem :=
  { mem := createMem zeroMem [116], block_offset := 0,
    topic_header := { event_stream_name := [116], first_message_ptr := 0,
                      binary_version := 1000000 } }

theorem bootstrap_and_recovery_witness :
    ∃ fs₂,
      get_or_create (appendList fs0c5 [u64Enc 5]).1.mem [119] = some fs₂
      ∧ fs₂.get_topic_height = totalBlocks [u64Enc 5]
      ∧ fs₂.mem = (appendList fs0c5 [u64Enc 5]).1.mem
      ∧ List.Forall₂
          (fun id bs => ∀ (β : Type) (dec : List Nat → Option β) (v : β),
            dec bs = some v → fs₂.read_topic_message dec id = Except.ok v)
          (appendList fs0c5 [u64Enc 5]).2 [u64Enc 5] :=
  (bootstrap_and_recovery zeroMem [116]).2.2.2 [u64Enc 5] fs0c5 (by decide) (by decide)
    (get_or_create_eq_create zeroMem [116] (by decide) (by decide)) (by decide) (by decide)
    [119]
